import Mathlib

/-!
Verification development for the Fastfood offer-extraction pipeline.

The definitions below are shallow embeddings of the Python sources:
  * `scraper/src/food_extractor.py`        (regex food-item extractor, `FoodExtractor`)
  * `scraper/src/llm_food_extractor.py`    (LLM-assisted extractor, `LLMFoodExtractor`)
  * `scraper/src/parsers/base_parser.py`   (hour extraction, empty-food-info fallback)
  * `scraper/src/parsers/ai_parser.py`     (price extraction, `AIParser._extract_price_kr`)
  * `scraper/src/parsers/dominos_parser.py`(TRÍÓ composite-offer special case)

Modelling conventions:
  * Python dicts become structures; an absent key becomes `none` in an `Option` field
    (matching `dict.get(key)` / `dict.get(key, default)` reads in the source).
  * Python strings become `String`; `str.lower()` is modelled by mapping
    `Char.toLower` over the characters, which folds ASCII letters only.  All concrete inputs used in theorems are chosen
    so that this restriction is irrelevant (their non-ASCII letters are already
    lower-case, as in the scraped Icelandic text the source operates on).
  * `re` patterns are compiled by hand into deterministic character-level matchers.
    Each pattern used by the source is a sequence of literals, character classes and
    greedy/optional repetitions whose neighbouring alphabets are disjoint, so greedy
    maximal-munch matching coincides with Python's backtracking semantics.
  * `list(set(xs))` (Python's order-unspecified dedup) is modelled by `List.eraseDups`,
    which keeps first occurrences; no theorem below depends on the dedup order.
-/

namespace Fastfood

/-! ## Generic character/list helpers -/

/-- Python `\s` for the inputs at hand (ASCII whitespace). -/
def isWs (c : Char) : Bool :=
  c = ' ' || c = '\t' || c = '\n' || c = '\r'

/-- Substring containment test: does `needle` occur inside `hay`?
Models Python's `needle in hay`. -/
def subOccurs (hay : List Char) (needle : List Char) : Bool :=
  match hay with
  | [] => needle.isEmpty
  | _ :: rest => needle.isPrefixOf hay || subOccurs rest needle

/-- `needle in hay` on strings (Python `in`). -/
def strContains (hay needle : String) : Bool :=
  subOccurs hay.data needle.data

/-- Maximal digit run at the front of `cs` (the greedy `\d+`). -/
def takeDigitRun (cs : List Char) : List Char × List Char :=
  match cs with
  | [] => ([], [])
  | c :: rest =>
    if c.isDigit then
      let (run, r) := takeDigitRun rest
      (c :: run, r)
    else ([], c :: rest)

/-- Numeric value of a digit run (Python `int` on an all-digit string). -/
def natOfDigits (cs : List Char) : Nat :=
  cs.foldl (fun acc c => 10 * acc + (c.toNat - '0'.toNat)) 0

/-- Python `int(s)` for the strings the source feeds it: succeeds exactly on
non-empty all-digit strings, otherwise raises (modelled as `none`). -/
def intOfString? (cs : List Char) : Option Nat :=
  if cs ≠ [] && cs.all Char.isDigit then some (natOfDigits cs) else none

/-- Drop leading whitespace (the greedy `\s*`). -/
def dropWs (cs : List Char) : List Char :=
  cs.dropWhile isWs

/-- Match a literal string prefix, returning the rest. -/
def matchLit (lit : List Char) (cs : List Char) : Option (List Char) :=
  match lit, cs with
  | [], rest => some rest
  | _ :: _, [] => none
  | l :: ls, c :: rest => if c = l then matchLit ls rest else none

/-- Match `\s+` (at least one whitespace character), returning the rest. -/
def matchWs1 (cs : List Char) : Option (List Char) :=
  match cs with
  | [] => none
  | c :: rest => if isWs c then some (dropWs rest) else none

/-- Python `str.strip()` (ASCII whitespace at both ends). -/
def stripWs (cs : List Char) : List Char :=
  dropWs ((dropWs cs.reverse).reverse)

/-- Leftmost-match regex search: try `attempt` at every start position, left to
right, and keep the first success (Python `re.search`). -/
def searchFirst {α : Type} (attempt : List Char → Option α) : List Char → Option α
  | [] => none
  | c :: rest => (attempt (c :: rest)).orElse fun _ => searchFirst attempt rest

/-! ## Data model

`FoodItem` models the item dicts built by both extractors
(`FoodExtractor._extract_item_details` and
`LLMFoodExtractor._parse_llm_response`).  The regex extractor's dicts carry no
`is_choice`/`choice_group` keys; since every read of those keys in the source is
a `dict.get` with default `False`/`None`, the absent keys are modelled as
`is_choice := false` and `choice_group := none`. -/

/-- A size dict (`size_info` in `FoodExtractor._extract_size`, or the `size`
object of an LLM response item).  Absent keys are `none`. -/
structure Size where
  inches : Option Nat := none
  liters : Option Nat := none
  descriptor : Option String := none
  unit : Option String := none
deriving DecidableEq, Repr

/-- The all-absent size dict `{}`; Python treats it as falsy. -/
def Size.empty : Size := {}

/-- Python truthiness of a size dict: non-empty, i.e. some key present. -/
def Size.truthy (s : Size) : Bool :=
  s.inches.isSome || s.liters.isSome || s.descriptor.isSome || s.unit.isSome

structure FoodItem where
  type : String
  name : String
  category : String
  icon : String
  quantity : Nat
  size : Option Size
  modifiers : List String
  phrase : String
  is_choice : Bool
  choice_group : Option String
deriving DecidableEq, Repr

/-! ## Regex food extractor (`scraper/src/food_extractor.py`) -/

/-- `FoodExtractor.icelandic_numbers`, in Python dict insertion order. -/
def icelandicNumbers : List (String × Nat) :=
  [("einn", 1), ("ein", 1), ("eitt", 1),
   ("tveir", 2), ("tvær", 2), ("tvö", 2),
   ("þrír", 3), ("þrjár", 3), ("þrjú", 3),
   ("fjórir", 4), ("fjórar", 4), ("fjögur", 4),
   ("fimm", 5), ("sex", 6), ("sjö", 7), ("átta", 8), ("níu", 9), ("tíu", 10),
   ("ellefu", 11), ("tólf", 12)]

/-- `FoodExtractor.food_categories`: (type, terms, category, icon), in Python
dict insertion order. -/
def foodCategories : List (String × List String × String × String) :=
  [("pizza", ["pizza", "pizzur", "pizzu", "pönnupizza"], "main", "🍕"),
   ("burger", ["hamborgari", "borgari", "burger", "búlluborgari", "búlluborgarar",
               "barnaborgari", "barnaborgarar"], "main", "🍔"),
   ("sub", ["bátur", "báta", "bát", "skinkubát", "pizzabát", "sub"], "main", "🥪"),
   ("chicken", ["kjúklingur", "kjúklingabitar", "kjúklingalundir", "chicken",
                "wings", "hot wings"], "main", "🍗"),
   ("fries", ["franskar", "kartöflur", "fries"], "side", "🍟"),
   ("soda", ["gos", "gosdrykk", "drykkur", "soda", "kók", "kóka", "ískalt gos"],
    "drink", "🥤"),
   ("cookie", ["kaka", "kökur", "cookie", "cookies"], "dessert", "🍪"),
   ("sauce", ["sósa", "sósur", "sauce", "dip"], "side", "🍅"),
   ("salad", ["salat", "hrásalat", "grænmeti", "salad"], "side", "🥗"),
   ("fruit", ["ávaxta", "ávextir", "fruit", "juice"], "drink", "🧃"),
   ("snack", ["snakki", "meðlæti", "side", "snack"], "side", "🥨")]

/-- `re.split(r'[,\.\|]|og|með|ásamt|fyrir', text)`: split on any of the
separator alternatives, scanning left to right. -/
def splitPhrasesAux (buf : List Char) : List Char → List (List Char)
  | [] => [buf.reverse]
  | ',' :: rest => buf.reverse :: splitPhrasesAux [] rest
  | '.' :: rest => buf.reverse :: splitPhrasesAux [] rest
  | '|' :: rest => buf.reverse :: splitPhrasesAux [] rest
  | 'o' :: 'g' :: rest => buf.reverse :: splitPhrasesAux [] rest
  | 'm' :: 'e' :: 'ð' :: rest => buf.reverse :: splitPhrasesAux [] rest
  | 'á' :: 's' :: 'a' :: 'm' :: 't' :: rest => buf.reverse :: splitPhrasesAux [] rest
  | 'f' :: 'y' :: 'r' :: 'i' :: 'r' :: rest => buf.reverse :: splitPhrasesAux [] rest
  | c :: rest => splitPhrasesAux (c :: buf) rest

def splitPhrases (cs : List Char) : List (List Char) :=
  splitPhrasesAux [] cs

/-- The `number_before` search `re.search(r'(\d+)\s*.*?' + term, phrase)`:
leftmost digit run that has an occurrence of `term` at or after its end.
(Every term in the lexicon begins with a letter, so a term occurrence can never
begin strictly inside a digit run and the run never needs shortening.) -/
theorem takeDigitRun_snd_length (cs : List Char) :
    (takeDigitRun cs).2.length ≤ cs.length := by
  induction cs with
  | nil => simp [takeDigitRun]
  | cons c rest ih =>
    simp only [takeDigitRun]
    split
    · simpa using Nat.le_succ_of_le ih
    · simp

def numberBeforeAux (term : List Char) : Nat → List Char → Option Nat
  | 0, _ => none
  | _ + 1, [] => none
  | n + 1, c :: rest =>
    if c.isDigit then
      -- maximal run at this position is `c ::` the run taken from `rest`
      if subOccurs (takeDigitRun rest).2 term then
        some (natOfDigits (c :: (takeDigitRun rest).1))
      else numberBeforeAux term n (takeDigitRun rest).2
    else numberBeforeAux term n rest

/-- Each step recurses on a strictly shorter list (`takeDigitRun_snd_length`),
so `length + 1` fuel always suffices. -/
def numberBefore? (cs : List Char) (term : List Char) : Option Nat :=
  numberBeforeAux term (cs.length + 1) cs

/-- `FoodExtractor._extract_quantity`. -/
def extractQuantity (phrase : List Char) (term : String) : Nat :=
  match numberBefore? phrase term.data with
  | some n => n
  | none =>
    match icelandicNumbers.find? (fun wv => subOccurs phrase wv.1.data) with
    | some wv => wv.2
    | none => 1

/-- Attempt for `r'(\d+)\s*["\']?\s*tommu?'` at one position. -/
def inchesAt (cs : List Char) : Option Nat :=
  match cs with
  | [] => none
  | c :: _ =>
    if c.isDigit then
      let (run, r1) := takeDigitRun cs
      let r2 := dropWs r1
      let r3 := match r2 with
        | '"' :: t => t
        | '\'' :: t => t
        | _ => r2
      let r4 := dropWs r3
      match matchLit "tomm".data r4 with
      | some _ => some (natOfDigits run)
      | none => none
    else none

/-- Attempt for `r'(\d+)\s*lítra'` at one position. -/
def litersAt (cs : List Char) : Option Nat :=
  match cs with
  | [] => none
  | c :: _ =>
    if c.isDigit then
      let (run, r1) := takeDigitRun cs
      let r2 := dropWs r1
      match matchLit "lítra".data r2 with
      | some _ => some (natOfDigits run)
      | none => none
    else none

/-- Leftmost match of an alternation of literal words (first alternative wins
at each position). -/
def searchAlt (alts : List String) (cs : List Char) : Option String :=
  searchFirst (fun suff => (alts.find? (fun a => a.data.isPrefixOf suff))) cs

/-- `FoodExtractor.size_patterns['pizza_size']` alternatives. -/
def pizzaSizeAlts : List String := ["stór", "lítil", "miðlungs", "pönnupizza"]

/-- `FoodExtractor.size_patterns['general_size']` alternatives. -/
def generalSizeAlts : List String :=
  ["stór", "lítil", "miðlungs", "stor", "lítill", "big", "small", "large", "medium"]

/-- `FoodExtractor._extract_size`. -/
def extractSize (phrase : List Char) : Option Size :=
  let s0 : Size := {}
  let s1 := match searchFirst inchesAt phrase with
    | some n => { s0 with inches := some n, unit := some "inches" }
    | none => s0
  let s2 := match searchFirst litersAt phrase with
    | some n => { s1 with liters := some n, unit := some "liters" }
    | none => s1
  let s3 := match searchAlt pizzaSizeAlts phrase with
    | some d => { s2 with descriptor := some d, unit := some "descriptor" }
    | none => s2
  let s4 := match searchAlt generalSizeAlts phrase with
    | some d =>
      if s3.descriptor.isSome then s3
      else { s3 with descriptor := some d, unit := some "descriptor" }
    | none => s3
  if s4 = Size.empty then none else some s4

/-- `FoodExtractor._extract_modifiers`' per-type modifier table. -/
def modifierPatterns : List (String × List String) :=
  [("pizza", ["stór", "lítil", "pönnupizza", "margarita", "pepperoni"]),
   ("chicken", ["original", "zinger", "hot", "spicy", "heit"]),
   ("sauce", ["heit", "brún", "bbq", "kokteilsósa", "hot sauce"]),
   ("sub", ["skinkubát", "pizzabát", "kalkún", "túnfisk", "grænmetissælu"])]

/-- `FoodExtractor._extract_modifiers`. -/
def extractModifiers (phrase : List Char) (foodType : String) : List String :=
  match modifierPatterns.find? (fun p => p.1 = foodType) with
  | some p => p.2.filter (fun m => subOccurs phrase m.data)
  | none => []

/-- `FoodExtractor._extract_item_details` (the dict it builds carries no
`is_choice`/`choice_group` keys; reads of those keys default to
`False`/`None`, modelled here directly). -/
def extractItemDetails (phrase : List Char) (foodType term category icon : String) :
    FoodItem :=
  { type := foodType
    name := term
    category := category
    icon := icon
    quantity := extractQuantity phrase term
    size := extractSize phrase
    modifiers := extractModifiers phrase foodType
    phrase := ⟨stripWs phrase⟩
    is_choice := false
    choice_group := none }

/-- Per-phrase category scan over a category table. -/
def phraseItemsAux (cfgs : List (String × List String × String × String))
    (phrase : List Char) : List FoodItem :=
  cfgs.foldr
    (fun cfg acc =>
      match cfg.2.1.find? (fun t => subOccurs phrase t.data) with
      | some t => extractItemDetails phrase cfg.1 t cfg.2.2.1 cfg.2.2.2 :: acc
      | none => acc)
    []

/-- Per-phrase scan of `FoodExtractor._extract_food_items`: for each category
(in table order) the first matching term yields one item; the inner `break`
only leaves the term loop, so one phrase can contribute one item per category. -/
def phraseItems (phrase : List Char) : List FoodItem :=
  phraseItemsAux foodCategories phrase

/-- Merge-key equality used by `FoodExtractor._merge_similar_items`:
`merged_item['type'] == item['type'] and merged_item.get('size') == item.get('size')`. -/
def sameKey (a b : FoodItem) : Bool :=
  a.type = b.type && a.size = b.size

/-- The in-place update performed when a similar item is found: quantities are
summed; when the incoming modifiers are non-empty the union is deduplicated
(`list(set(...))`, modelled by `List.eraseDups`). -/
def mergeUpdate (ex item : FoodItem) : FoodItem :=
  { ex with
    quantity := ex.quantity + item.quantity
    modifiers :=
      if item.modifiers = [] then ex.modifiers
      else (ex.modifiers ++ item.modifiers).eraseDups }

/-- One step of the merge loop: fold `item` into the first accumulated item
with the same `(type, size)` key, else append it. -/
def mergeInto (acc : List FoodItem) (item : FoodItem) : List FoodItem :=
  match acc with
  | [] => [item]
  | x :: xs =>
    if sameKey x item then mergeUpdate x item :: xs
    else x :: mergeInto xs item

/-- `FoodExtractor._merge_similar_items`. -/
def mergeSimilarItems (items : List FoodItem) : List FoodItem :=
  items.foldl mergeInto []

/-- The items one phrase contributes: nothing when the stripped phrase is
shorter than three characters, else the category scan. -/
def phraseContrib (ph : List Char) : List FoodItem :=
  let ph := stripWs ph
  if ph.length < 3 then [] else phraseItems ph

/-- `FoodExtractor._extract_food_items`: phrase contributions in phrase order,
then the merge pass. -/
def extractFoodItems (text : List Char) : List FoodItem :=
  mergeSimilarItems (((splitPhrases text).map phraseContrib).flatten)

/-- `FoodExtractor._determine_meal_type`. -/
def determineMealType (items : List FoodItem) : String :=
  let categories : List String := items.map (·.category)
  let total : Nat := items.foldl (fun a i => a + i.quantity) 0
  if total ≥ 6 then "family"
  else if (categories.filter (· = "main")).length ≥ 2 then "sharing"
  else if categories.contains "main" &&
          (categories.contains "side" || categories.contains "drink") then "combo"
  else if categories.contains "main" then "individual"
  else if categories.contains "dessert" then "dessert"
  else "snack"

/-- The result dict of `FoodExtractor.extract_food_info`. -/
structure RegexFoodInfo where
  food_items : List FoodItem
  total_items : Nat
  meal_type : String
  is_combo : Bool
  main_items : List FoodItem
  side_items : List FoodItem
  drink_items : List FoodItem
  dessert_items : List FoodItem
deriving Repr

/-- `FoodExtractor.extract_food_info`. -/
def extractFoodInfo (offerName description : String) : RegexFoodInfo :=
  let fullText := (offerName ++ " " ++ description).data.map Char.toLower
  let foodItems := extractFoodItems fullText
  { food_items := foodItems
    total_items := foodItems.foldl (fun a i => a + i.quantity) 0
    meal_type := determineMealType foodItems
    is_combo :=
      (foodItems.filter (fun i => ["main", "side", "drink"].contains i.category)).length ≥ 2
    main_items := foodItems.filter (fun i => i.category = "main")
    side_items := foodItems.filter (fun i => i.category = "side")
    drink_items := foodItems.filter (fun i => i.category = "drink")
    dessert_items := foodItems.filter (fun i => i.category = "dessert") }

/-! ## LLM-assisted food extractor (`scraper/src/llm_food_extractor.py`)

The LLM call itself and the JSON decoding of its raw response are external
effects; the embedding starts from the decoded response (`llm_data` after
`json.loads` in `_parse_llm_response`).  A response that fails to decode, and
every other exception path, yields `_get_empty_food_info()`, embedded as
`emptyFoodInfoLLM`.  The vocabulary store (`food_categories.json`) and the icon
mapping file are runtime state, passed in as the parameters `vocab` (type →
category, `none` for an unknown type) and `iconF` (type → icon). -/

/-- `LLMFoodExtractor.icelandic_declensions`, in Python dict insertion order
(the source lists the key `'vængina'` twice with the same value; a Python dict
keeps one entry). -/
def icelandicDeclensions : List (String × String) :=
  [("gosi", "gos"), ("gosinu", "gos"), ("goss", "gos"), ("gosanna", "gos"),
   ("gosum", "gos"),
   ("frönskum", "franskar"), ("franska", "franskar"), ("franskar", "franskar"),
   ("franskum", "franskar"), ("frönsku", "franskar"),
   ("borgara", "borgari"), ("borgarann", "borgari"), ("borgaranum", "borgari"),
   ("borgarans", "borgari"), ("borgari", "borgari"), ("borgurum", "borgari"),
   ("kjúklinginn", "kjúklingur"), ("kjúklingnum", "kjúklingur"),
   ("kjúklings", "kjúklingur"), ("kjúklinga", "kjúklingur"),
   ("kjúklingum", "kjúklingur"), ("kjúklingunum", "kjúklingur"),
   ("pizzuna", "pizza"), ("pizzunni", "pizza"), ("pizzunnar", "pizza"),
   ("pizzur", "pizza"), ("pizzum", "pizza"), ("pizzanna", "pizza"),
   ("vængina", "vængir"), ("væng", "vængir"), ("vængjum", "vængir"),
   ("sósu", "sósa"), ("sósunni", "sósa"), ("sósur", "sósa"), ("sósum", "sósa"),
   ("sósanna", "sósa"),
   ("brauðinu", "brauð"), ("brauðs", "brauð"), ("brauðið", "brauð"),
   ("báti", "bátur"), ("bátinn", "bátur"), ("bátnum", "bátur"),
   ("báta", "bátur"), ("bátum", "bátur")]

/-- `LLMFoodExtractor._normalize_icelandic_word`: look up `word.lower().strip()`
in the declension map; on a miss return the original word. -/
def normalizeIcelandicWord (word : String) : String :=
  if word = "" then word
  else
    let key : String := ⟨stripWs (word.data.map Char.toLower)⟩
    match icelandicDeclensions.find? (fun p => p.1 = key) with
    | some p => p.2
    | none => word

/-- `LLMFoodExtractor._get_category_for_type`: the vocabulary's category for a
known type, else the default `'main'`. -/
def getCategoryForType (vocab : String → Option String) (foodType : String) : String :=
  (vocab foodType).getD "main"

/-- One food-item object of a decoded LLM response.  `name` and `type` are read
with direct indexing in the source (a missing key raises, landing on the
sentinel path); every other key is read via `.get` with the default shown. -/
structure LLMItem where
  name : String
  type : String
  quantity : Nat := 1
  size : Option Size := none
  modifiers : List String := []
  is_choice : Bool := false
  choice_group : Option String := none
deriving DecidableEq, Repr

/-- A new category proposed by the model (passed through unvalidated). -/
structure NewCategory where
  name : String
  description : String
  category : String
deriving DecidableEq, Repr

/-- A decoded single-offer LLM response (`llm_data`).  `meal_type := none`
models an absent key, read as `llm_data.get('meal_type', 'snack')`. -/
structure LLMData where
  food_items : List LLMItem := []
  meal_type : Option String := none
  new_categories : List NewCategory := []
deriving Repr

/-- Result dict of `_parse_llm_response` (and of one offer of
`_parse_batch_llm_response`). -/
structure LLMFoodInfo where
  food_items : List FoodItem
  meal_type : String
  is_combo : Bool
  total_food_items : Nat
  main_items : List FoodItem
  side_items : List FoodItem
  drink_items : List FoodItem
  dessert_items : List FoodItem
  new_categories : List NewCategory
deriving Repr

/-- Python truthiness of `food_item['size'].get('liters')`: a present,
non-zero liters value. -/
def litersTruthy (s : Option Size) : Bool :=
  match s with
  | some sz => sz.liters.getD 0 ≠ 0
  | none => false

/-- Python truthiness of `food_item.get('size')`: a present, non-empty dict. -/
def sizeTruthy (s : Option Size) : Bool :=
  match s with
  | some sz => sz.truthy
  | none => false

/-- The soda-quantity normalization block, duplicated verbatim in
`_parse_llm_response` (lines 389-399) and `_parse_batch_llm_response`
(lines 612-622). -/
def normalizeSoda (fi : FoodItem) : FoodItem :=
  if fi.type = "soda" then
    if litersTruthy fi.size then
      { fi with quantity := 1, phrase := "1 " ++ fi.name }
    else if fi.quantity > 1 && !(sizeTruthy fi.size) then
      if 1 < fi.quantity && fi.quantity ≤ 3 then
        { fi with
          size := some { liters := some fi.quantity }
          quantity := 1
          phrase := "1 " ++ toString fi.quantity ++ "L " ++ fi.name }
      else fi
    else fi
  else fi

/-- The item conversion of `_parse_llm_response` before the soda block. -/
def convertLLMItem (vocab : String → Option String) (iconF : String → String)
    (it : LLMItem) : FoodItem :=
  let normalizedName := normalizeIcelandicWord it.name
  { type := it.type
    name := normalizedName
    category := getCategoryForType vocab it.type
    icon := iconF it.type
    quantity := it.quantity
    size := it.size
    modifiers := it.modifiers
    phrase := toString it.quantity ++ " " ++ normalizedName
    is_choice := it.is_choice
    choice_group := it.choice_group }

/-- `LLMFoodExtractor._parse_llm_response` on a successfully decoded response. -/
def parseLLMResponse (vocab : String → Option String) (iconF : String → String)
    (d : LLMData) : LLMFoodInfo :=
  let foodItems : List FoodItem :=
    d.food_items.map (fun it => normalizeSoda (convertLLMItem vocab iconF it))
  { food_items := foodItems
    meal_type := d.meal_type.getD "snack"
    is_combo :=
      (foodItems.filter (fun i =>
        ["main", "side", "drink"].contains i.category && !i.is_choice)).length ≥ 2
    total_food_items :=
      (foodItems.filter (fun i => !i.is_choice)).foldl (fun a i => a + i.quantity) 0
    main_items := foodItems.filter (fun i => i.category = "main")
    side_items := foodItems.filter (fun i => i.category = "side")
    drink_items := foodItems.filter (fun i => i.category = "drink")
    dessert_items := foodItems.filter (fun i => i.category = "dessert")
    new_categories := d.new_categories }

/-- One offer of `LLMFoodExtractor._parse_batch_llm_response` (lines 589-651):
the source duplicates the single-offer conversion verbatim, with `meal_type`,
`food_items` and `new_categories` drawn from the per-offer object. -/
def parseBatchLLMOffer (vocab : String → Option String) (iconF : String → String)
    (d : LLMData) : LLMFoodInfo :=
  let foodItems : List FoodItem :=
    d.food_items.map (fun it => normalizeSoda (convertLLMItem vocab iconF it))
  { food_items := foodItems
    meal_type := d.meal_type.getD "snack"
    is_combo :=
      (foodItems.filter (fun i =>
        ["main", "side", "drink"].contains i.category && !i.is_choice)).length ≥ 2
    total_food_items :=
      (foodItems.filter (fun i => !i.is_choice)).foldl (fun a i => a + i.quantity) 0
    main_items := foodItems.filter (fun i => i.category = "main")
    side_items := foodItems.filter (fun i => i.category = "side")
    drink_items := foodItems.filter (fun i => i.category = "drink")
    dessert_items := foodItems.filter (fun i => i.category = "dessert")
    new_categories := d.new_categories }

/-- `LLMFoodExtractor._get_empty_food_info` (lines 767-778), the sentinel used
on every LLM error path.  The source dict has no `new_categories` key; the
(empty) field value here models reads of `result.get('new_categories')`. -/
def emptyFoodInfoLLM : LLMFoodInfo :=
  { food_items := []
    meal_type := "unknown"
    is_combo := false
    total_food_items := 0
    main_items := []
    side_items := []
    drink_items := []
    dessert_items := []
    new_categories := [] }

/-! ## Domino's parser TRÍÓ special case (`scraper/src/parsers/dominos_parser.py`) -/

/-- `DominosParser._is_trio_offer`: the lowered offer name, with `í → i` and
`ó → o`, contains `"trio"`.  A missing or empty name is not a TRÍÓ offer. -/
def isTrioOffer (offerName : Option String) : Bool :=
  match offerName with
  | none => false
  | some n =>
    if n = "" then false
    else
      let normalized : List Char :=
        (n.data.map Char.toLower).map (fun c => if c = 'í' then 'i' else if c = 'ó' then 'o' else c)
      subOccurs normalized "trio".data

/-- One alternative-pizza item of the TRÍÓ enhancement
(`dominos_parser.py` lines 320-323).  The source dict literal has exactly the
keys `type`, `name`, `category`, `is_choice`; `choice_group := none` models the
result of reading the absent `choice_group` key with `.get`. -/
structure TrioItem where
  type : String
  name : String
  category : String
  is_choice : Bool
  choice_group : Option String := none
deriving DecidableEq, Repr

/-- The enhanced-offer food fields produced by the TRÍÓ branch of
`DominosParser.enhance_offers_with_food_info` (lines 307-324): the offer is
first updated with `BaseParser._get_empty_food_info()` (whose values appear
below unchanged), then only `food_items`, `main_food_type` and
`food_description` are overwritten. -/
structure TrioFoodInfo where
  food_items : List TrioItem
  meal_type : String
  is_combo : Bool
  complexity_score : Nat
  total_food_items : Nat
  main_items : List FoodItem
  side_items : List FoodItem
  drink_items : List FoodItem
  dessert_items : List FoodItem
  visual_summary : String
  main_food_type : String
  food_description : String
deriving Repr

/-- The TRÍÓ branch result, as a function of the offer's `trio_pizzas` field
(absent ⇒ the fixed default list, line 319). -/
def dominosTrioFoodInfo (trioPizzas : Option (List String)) : TrioFoodInfo :=
  let names := trioPizzas.getD ["Bistro", "Domino's Deluxe", "Kjötveisla"]
  { food_items :=
      names.map (fun n => { type := "pizza", name := n, category := "main", is_choice := true })
    meal_type := "snack"
    is_combo := false
    complexity_score := 0
    total_food_items := 0
    main_items := []
    side_items := []
    drink_items := []
    dessert_items := []
    visual_summary := "🍽️ General offer"
    main_food_type := "pizza"
    food_description := "Velja á milli: " ++ String.intercalate ", " names }

/-! ## Hour extraction (`BaseParser.extract_hours`, `base_parser.py` 316-358)

`re.IGNORECASE` matching is modelled by lowering the text first; every
character the five patterns can consume or emit (digits, `:`, `.`, `-`,
whitespace, and the lower-case literals `frá`/`til`/`milli`/`og`/`kl`) is
unchanged by lowering, so the match set and the normalized output agree with
matching on the original text.  `re.finditer` is reproduced by a left-to-right
scan that restarts after each match; every pattern consumes at least one
character, so `length + 1` fuel is always sufficient. -/

/-- `(\d{1,2})` followed by the separator (greedy: two digits preferred);
returns the hour digits and the rest after the separator. -/
def pHourSep (sep : Char) (cs : List Char) : Option (List Char × List Char) :=
  match cs with
  | a :: b :: c :: r =>
    if a.isDigit && b.isDigit && c = sep then some ([a, b], r)
    else if a.isDigit && b = sep then some ([a], c :: r)
    else none
  | [a, b] => if a.isDigit && b = sep then some ([a], []) else none
  | _ => none

/-- `(\d{2})`: exactly two digits. -/
def pMin (cs : List Char) : Option (List Char × List Char) :=
  match cs with
  | m1 :: m2 :: r => if m1.isDigit && m2.isDigit then some ([m1, m2], r) else none
  | _ => none

/-- Python `str.zfill(2)` on a 1-2 digit group. -/
def zfill2 (h : List Char) : List Char :=
  if h.length = 1 then '0' :: h else h

/-- The normalized `"HH:MM-HH:MM"` string built from the four groups. -/
def fmtRange (h1 m1 h2 m2 : List Char) : String :=
  ⟨zfill2 h1 ++ ':' :: (m1 ++ '-' :: (zfill2 h2 ++ ':' :: m2))⟩

/-- Patterns 1 and 2: `(\d{1,2})sep(\d{2})\s*-\s*(\d{1,2})sep(\d{2})` with
`sep` being `:` or `.`. -/
def pCore (sep : Char) (cs : List Char) : Option (String × List Char) :=
  (pHourSep sep cs).bind fun p1 =>
  (pMin p1.2).bind fun q1 =>
  (matchLit "-".data (dropWs q1.2)).bind fun r4 =>
  (pHourSep sep (dropWs r4)).bind fun p2 =>
  (pMin p2.2).bind fun q2 =>
  some (fmtRange p1.1 q1.1 p2.1 q2.1, q2.2)

/-- Pattern 3: `frá\s+(\d{1,2}):(\d{2})\s+til\s+(\d{1,2}):(\d{2})`. -/
def fraTilAt (cs : List Char) : Option (String × List Char) :=
  (matchLit "frá".data cs).bind fun r0 =>
  (matchWs1 r0).bind fun r1 =>
  (pHourSep ':' r1).bind fun p1 =>
  (pMin p1.2).bind fun q1 =>
  (matchWs1 q1.2).bind fun r4 =>
  (matchLit "til".data r4).bind fun r5 =>
  (matchWs1 r5).bind fun r6 =>
  (pHourSep ':' r6).bind fun p2 =>
  (pMin p2.2).bind fun q2 =>
  some (fmtRange p1.1 q1.1 p2.1 q2.1, q2.2)

/-- Pattern 4: `milli\s+(\d{1,2}):(\d{2})\s+og\s+(\d{1,2}):(\d{2})`. -/
def milliOgAt (cs : List Char) : Option (String × List Char) :=
  (matchLit "milli".data cs).bind fun r0 =>
  (matchWs1 r0).bind fun r1 =>
  (pHourSep ':' r1).bind fun p1 =>
  (pMin p1.2).bind fun q1 =>
  (matchWs1 q1.2).bind fun r4 =>
  (matchLit "og".data r4).bind fun r5 =>
  (matchWs1 r5).bind fun r6 =>
  (pHourSep ':' r6).bind fun p2 =>
  (pMin p2.2).bind fun q2 =>
  some (fmtRange p1.1 q1.1 p2.1 q2.1, q2.2)

/-- Pattern 5: `kl\.?\s*(\d{1,2}):(\d{2})\s*-\s*(\d{1,2}):(\d{2})`. -/
def skipDot (cs : List Char) : List Char :=
  match cs with
  | '.' :: t => t
  | _ => cs

def klAt (cs : List Char) : Option (String × List Char) :=
  (matchLit "kl".data cs).bind fun r0 =>
  pCore ':' (dropWs (skipDot r0))

/-- `re.finditer`: scan left to right, restarting after each match. -/
def scanMatches (attempt : List Char → Option (String × List Char)) :
    Nat → List Char → List String
  | 0, _ => []
  | _ + 1, [] => []
  | n + 1, c :: rest =>
    match attempt (c :: rest) with
    | some (s, r) => s :: scanMatches attempt n r
    | none => scanMatches attempt n rest

/-- Append a range if not already collected (`if time_range not in found_times`). -/
def addUnique (acc : List String) (s : String) : List String :=
  if acc.contains s then acc else acc ++ [s]

def addAll (acc : List String) (xs : List String) : List String :=
  xs.foldl addUnique acc

/-- The named Icelandic meal times of `extract_hours`, in dict order. -/
def mealTimes : List (String × String) :=
  [("hádegi", "11:00-15:00"), ("hádegis", "11:00-15:00"),
   ("morgun", "07:00-11:00"), ("kvöld", "17:00-22:00"), ("nótt", "22:00-06:00")]

/-- `BaseParser.extract_hours`. -/
def extractHours (text : String) : Option String :=
  if text = "" then none
  else
    let cs := text.data.map Char.toLower
    let fuel := cs.length + 1
    let found :=
      addAll (addAll (addAll (addAll (addAll []
        (scanMatches (pCore ':') fuel cs))
        (scanMatches (pCore '.') fuel cs))
        (scanMatches fraTilAt fuel cs))
        (scanMatches milliOgAt fuel cs))
        (scanMatches klAt fuel cs)
    let found2 := mealTimes.foldl
      (fun acc kv =>
        if subOccurs cs kv.1.data && !(acc.contains kv.2) then acc ++ [kv.2] else acc)
      found
    if found2 = [] then none else some (String.intercalate "," found2)

/-- No time separator and no named meal word: the guard under which the claim
says no hour may be produced. -/
def noHourEvidence (text : String) : Bool :=
  let cs := text.data.map Char.toLower
  decide (':' ∉ cs) && decide ('.' ∉ cs) &&
  !subOccurs cs "hádegi".data && !subOccurs cs "hádegis".data &&
  !subOccurs cs "morgun".data && !subOccurs cs "kvöld".data &&
  !subOccurs cs "nótt".data

/-! ## AI-parser price extraction (`AIParser._extract_price_kr`, `ai_parser.py` 288-350)

The nine patterns are tried in order; the first regex that matches anywhere in
the (stripped, case-folded) text supplies its first match's group.  A group
that fails `int()` or the 500..15000 plausibility window sends control to the
next pattern; after all patterns, a fallback scans every bare digit run. -/

def isDigitOrDot (c : Char) : Bool := c.isDigit || c = '.'

def isDigitOrComma (c : Char) : Bool := c.isDigit || c = ','

/-- Pattern shapes 1/3/5 (`kr\s*(CLASS+)`): attempt at one position. -/
def krThenClass (p : Char → Bool) (cs : List Char) : Option (List Char) :=
  match matchLit "kr".data cs with
  | none => none
  | some r0 =>
    let r1 := dropWs r0
    let t := r1.takeWhile p
    if t = [] then none else some t

/-- Pattern shapes 2/4/6 (`(CLASS+)\s*kr`): attempt at one position. -/
def classThenKr (p : Char → Bool) (cs : List Char) : Option (List Char) :=
  let t := cs.takeWhile p
  if t = [] then none
  else
    match matchLit "kr".data (dropWs (cs.dropWhile p)) with
    | none => none
    | some _ => some t

/-- The `(?:[.,]\d+)*` extension of pattern 7: greedily consume
separator-digit-run groups. -/
def extGroups : Nat → List Char → List Char
  | 0, _ => []
  | _ + 1, [] => []
  | n + 1, c :: rest =>
    if c = '.' || c = ',' then
      match rest with
      | d :: _ =>
        if d.isDigit then
          c :: (d :: (takeDigitRun rest.tail).1) ++ extGroups n (takeDigitRun rest.tail).2
        else []
      | [] => []
    else []

/-- Pattern 7 `kr\s*(\d+(?:[.,]\d+)*)`: attempt at one position. -/
def krGroupsAt (cs : List Char) : Option (List Char) :=
  match matchLit "kr".data cs with
  | none => none
  | some r0 =>
    let r1 := dropWs r0
    match r1 with
    | d :: _ =>
      if d.isDigit then
        let run := (takeDigitRun r1).1
        let rest := (takeDigitRun r1).2
        some (run ++ extGroups (rest.length + 1) rest)
      else none
    | [] => none

/-- Exactly three digits at the front. -/
def take3Digits (cs : List Char) : Option (List Char) :=
  match cs with
  | d1 :: d2 :: d3 :: _ =>
    if d1.isDigit && d2.isDigit && d3.isDigit then some [d1, d2, d3] else none
  | _ => none

/-- Pattern 8 `(\d{1,2}\.\d{3})`: attempt at one position (greedy: two leading
digits preferred; the one-digit alternative needs a `.` where the two-digit
case saw a digit, so no further backtracking arises). -/
def euroFormatAt (cs : List Char) : Option (List Char) :=
  match cs with
  | a :: b :: c :: r =>
    if a.isDigit && b.isDigit && c = '.' then
      match take3Digits r with
      | some ds => some ([a, b, '.'] ++ ds)
      | none => none
    else if a.isDigit && b = '.' then
      match take3Digits (c :: r) with
      | some ds => some ([a, '.'] ++ ds)
      | none => none
    else none
  | _ => none

/-- Pattern 9 `(\d{3,5})`: attempt at one position (greedy, up to five). -/
def shortNumberAt (cs : List Char) : Option (List Char) :=
  match cs with
  | c :: _ =>
    if c.isDigit then
      let run := (takeDigitRun cs).1
      if run.length ≥ 3 then some (run.take 5) else none
    else none
  | [] => none

/-- The period/comma resolution applied to a matched group (`ai_parser.py`
318-328) followed by `int()`: with a period present, a 3-digit final group
drops the periods (thousands separator); a 2-digit final group drops the
periods and appends `'0'`; otherwise the string is left as-is (and `int()`
fails on the remaining period).  Without a period, commas are dropped. -/
def processGroup (g : List Char) : Option Nat :=
  if g.contains '.' then
    let lastLen := (g.reverse.takeWhile (· ≠ '.')).length
    if lastLen = 3 then intOfString? (g.filter (· ≠ '.'))
    else if lastLen = 2 then intOfString? (g.filter (· ≠ '.') ++ ['0'])
    else intOfString? g
  else intOfString? (g.filter (· ≠ ','))

/-- The 500..15000 plausibility window. -/
def inPriceWindow (n : Nat) : Bool := 500 ≤ n && n ≤ 15000

/-- One pattern of the loop: first match anywhere, then group processing and
the window check; any failure falls through to the next pattern. -/
def tryPricePattern (attempt : List Char → Option (List Char)) (cs : List Char) :
    Option Nat :=
  match searchFirst attempt cs with
  | none => none
  | some g =>
    match processGroup g with
    | some n => if inPriceWindow n then some n else none
    | none => none

/-- `re.findall(r'\d+', ...)`: all maximal digit runs, left to right
(fuelled like `numberBefore?`; `length + 1` fuel always suffices). -/
def digitRuns : Nat → List Char → List (List Char)
  | 0, _ => []
  | _ + 1, [] => []
  | n + 1, c :: rest =>
    if c.isDigit then
      (c :: (takeDigitRun rest).1) :: digitRuns n (takeDigitRun rest).2
    else digitRuns n rest

/-- The final fallback: the first bare number inside the window. -/
def fallbackNumber (cs : List Char) : Option Nat :=
  ((digitRuns (cs.length + 1) cs).find? (fun r => inPriceWindow (natOfDigits r))).map
    natOfDigits

/-- `AIParser._extract_price_kr`. -/
def extractPriceKr (text : String) : Option Nat :=
  if text = "" then none
  else
    let cs := stripWs (text.data.map Char.toLower)
    (((((((((tryPricePattern (krThenClass isDigitOrDot) cs).orElse fun _ =>
      tryPricePattern (classThenKr isDigitOrDot) cs).orElse fun _ =>
      tryPricePattern (krThenClass isDigitOrComma) cs).orElse fun _ =>
      tryPricePattern (classThenKr isDigitOrComma) cs).orElse fun _ =>
      tryPricePattern (krThenClass Char.isDigit) cs).orElse fun _ =>
      tryPricePattern (classThenKr Char.isDigit) cs).orElse fun _ =>
      tryPricePattern krGroupsAt cs).orElse fun _ =>
      tryPricePattern euroFormatAt cs).orElse fun _ =>
      tryPricePattern shortNumberAt cs).orElse fun _ =>
      fallbackNumber cs

/-! ## Auxiliary definitions used by the theorems -/

/-- The merge key of an item: the `(type, size)` pair compared by
`_merge_similar_items`. -/
def itemKey (i : FoodItem) : String × Option Size := (i.type, i.size)

/-- Sum of quantities over a list of items. -/
def sumQuantities (l : List FoodItem) : Nat :=
  l.foldl (fun a i => a + i.quantity) 0

/-- The fixed meal-type vocabulary of the spec. -/
def mealTypeEnum : List String :=
  ["individual", "combo", "sharing", "family", "dessert", "snack", "unknown"]

/-- The vocabulary state of the shipped repository: `food_categories.json` is
absent, `_load_categories` returns empty dicts, so every type lookup misses. -/
def vocabEmpty : String → Option String := fun _ => none

/-- The default icon resolution (`'mdi:food'` for every type). -/
def iconDefault : String → String := fun _ => "mdi:food"

/-- Modelled from the spec (§4.5): the text-evidence-gated meal classifier.
`"family"` is assigned only when the source text contains the Icelandic word
for family (`"fjölskyldu"`, the evidence the repository's own repair scripts
`fix_json_data.py` / `fix_data_issues.py` test for); otherwise the category
rules apply.  This definition exists only to be compared against the source's
`determineMealType`. -/
def specMealClassify (sourceText : String) (items : List FoodItem) : String :=
  let categories : List String := items.map (·.category)
  if subOccurs (sourceText.data.map Char.toLower) "fjölskyldu".data then "family"
  else if (categories.filter (· = "main")).length ≥ 2 then "sharing"
  else if categories.contains "main" &&
          (categories.contains "side" || categories.contains "drink") then "combo"
  else if categories.contains "main" then "individual"
  else if categories.contains "dessert" then "dessert"
  else "snack"

/-- A concrete LLM-emitted soda item (decoded from a response such as
`{"name": "gos", "type": "soda", "quantity": 5, "size": {"liters": 2}}`),
used to witness the soda-normalization theorem. -/
def exampleSoda : FoodItem :=
  { type := "soda"
    name := "gos"
    category := "drink"
    icon := "🥤"
    quantity := 5
    size := some { liters := some 2 }
    modifiers := []
    phrase := "5 gos"
    is_choice := false
    choice_group := none }

/-! ## Merge-pass lemmas (claim C3) -/

theorem itemKey_mergeUpdate (x i : FoodItem) : itemKey (mergeUpdate x i) = itemKey x := rfl

theorem sameKey_iff (x i : FoodItem) : sameKey x i = true ↔ itemKey x = itemKey i := by
  simp [sameKey, itemKey, Prod.ext_iff]

theorem keys_mergeInto (acc : List FoodItem) (i : FoodItem) :
    (mergeInto acc i).map itemKey =
      if itemKey i ∈ acc.map itemKey then acc.map itemKey
      else acc.map itemKey ++ [itemKey i] := by
  induction acc with
  | nil => simp [mergeInto]
  | cons x xs ih =>
    by_cases h : sameKey x i = true
    · have hk : itemKey x = itemKey i := (sameKey_iff x i).mp h
      simp [mergeInto, h, itemKey_mergeUpdate, hk]
    · have hk : itemKey x ≠ itemKey i := fun he => h ((sameKey_iff x i).mpr he)
      have hk' : itemKey i ≠ itemKey x := fun he => hk he.symm
      by_cases hm : itemKey i ∈ xs.map itemKey
      · simp [mergeInto, h, ih, hm, hk']
      · simp [mergeInto, h, ih, hm, hk']

theorem nodup_keys_mergeInto {acc : List FoodItem} (i : FoodItem)
    (h : (acc.map itemKey).Nodup) : ((mergeInto acc i).map itemKey).Nodup := by
  rw [keys_mergeInto]
  by_cases hm : itemKey i ∈ acc.map itemKey
  · simpa [hm] using h
  · simp only [hm, if_false]
    rw [List.nodup_append]
    refine ⟨h, List.nodup_singleton _, ?_⟩
    intro a ha hb
    have : a = itemKey i := by simpa using hb
    exact hm (this ▸ ha)

theorem nodup_keys_foldl (L : List FoodItem) :
    ∀ acc : List FoodItem, (acc.map itemKey).Nodup →
      ((L.foldl mergeInto acc).map itemKey).Nodup := by
  induction L with
  | nil => intro acc h; simpa using h
  | cons i L ih =>
    intro acc h
    exact ih (mergeInto acc i) (nodup_keys_mergeInto i h)

theorem mergeInto_of_not_mem {acc : List FoodItem} {i : FoodItem}
    (h : itemKey i ∉ acc.map itemKey) : mergeInto acc i = acc ++ [i] := by
  induction acc with
  | nil => simp [mergeInto]
  | cons x xs ih =>
    have hx : itemKey i ≠ itemKey x := by
      intro he; exact h (by simp [he])
    have hs : sameKey x i = false := by
      cases hsk : sameKey x i
      · rfl
      · exact absurd ((sameKey_iff x i).mp hsk).symm hx
    have htail : mergeInto xs i = xs ++ [i] := ih (fun hm => h (by simp [hm]))
    simp [mergeInto, hs, htail]

theorem foldl_mergeInto_of_nodup (M : List FoodItem) :
    ∀ acc : List FoodItem, ((acc ++ M).map itemKey).Nodup →
      M.foldl mergeInto acc = acc ++ M := by
  induction M with
  | nil => intro acc _; simp
  | cons m M ih =>
    intro acc h
    have hm : itemKey m ∉ acc.map itemKey := by
      have h' := h
      rw [List.map_append, List.nodup_append] at h'
      intro hmem
      exact h'.2.2 hmem (by simp)
    have step : mergeInto acc m = acc ++ [m] := mergeInto_of_not_mem hm
    have hnd : (((acc ++ [m]) ++ M).map itemKey).Nodup := by
      simpa [List.append_assoc] using h
    calc (m :: M).foldl mergeInto acc = M.foldl mergeInto (mergeInto acc m) := rfl
      _ = M.foldl mergeInto (acc ++ [m]) := by rw [step]
      _ = (acc ++ [m]) ++ M := ih (acc ++ [m]) hnd
      _ = acc ++ m :: M := by simp

/-! ## Non-choice lemmas for the regex extractor (claim C5) -/

theorem phraseItemsAux_nonchoice (cfgs : List (String × List String × String × String))
    (ph : List Char) : ∀ i ∈ phraseItemsAux cfgs ph, i.is_choice = false := by
  induction cfgs with
  | nil => simp [phraseItemsAux]
  | cons cfg rest ih =>
    intro i hi
    simp only [phraseItemsAux, List.foldr_cons] at hi
    revert hi
    cases h : cfg.2.1.find? (fun t => subOccurs ph t.data) with
    | none => exact fun hi => ih i hi
    | some t =>
      intro hi
      rcases List.mem_cons.mp hi with h1 | h2
      · rw [h1]; rfl
      · exact ih i h2

theorem phraseContrib_nonchoice (ph : List Char) :
    ∀ i ∈ phraseContrib ph, i.is_choice = false := by
  intro i hi
  unfold phraseContrib at hi
  by_cases h : (stripWs ph).length < 3
  · simp [h] at hi
  · simp only [h, if_false] at hi
    exact phraseItemsAux_nonchoice _ _ i hi

theorem mergeUpdate_is_choice (x i : FoodItem) :
    (mergeUpdate x i).is_choice = x.is_choice := rfl

theorem mergeInto_nonchoice {acc : List FoodItem} {i : FoodItem}
    (hacc : ∀ j ∈ acc, j.is_choice = false) (hi : i.is_choice = false) :
    ∀ j ∈ mergeInto acc i, j.is_choice = false := by
  induction acc with
  | nil => simpa [mergeInto] using hi
  | cons x xs ih =>
    intro j hj
    simp only [mergeInto] at hj
    by_cases h : sameKey x i = true
    · simp only [h, if_true] at hj
      rcases List.mem_cons.mp hj with h1 | h2
      · rw [h1, mergeUpdate_is_choice]
        exact hacc x (by simp)
      · exact hacc j (by simp [h2])
    · simp only [h, if_false] at hj
      rcases List.mem_cons.mp hj with h1 | h2
      · exact hacc j (by simp [h1])
      · exact ih (fun k hk => hacc k (by simp [hk])) j h2

theorem mergeSimilarItems_nonchoice {L : List FoodItem}
    (hL : ∀ j ∈ L, j.is_choice = false) :
    ∀ j ∈ mergeSimilarItems L, j.is_choice = false := by
  unfold mergeSimilarItems
  have main : ∀ (M : List FoodItem), (∀ j ∈ M, j.is_choice = false) →
      ∀ (acc : List FoodItem), (∀ j ∈ acc, j.is_choice = false) →
      ∀ j ∈ M.foldl mergeInto acc, j.is_choice = false := by
    intro M
    induction M with
    | nil => intro _ acc hacc j hj; exact hacc j hj
    | cons m M ih =>
      intro hM acc hacc j hj
      exact ih (fun k hk => hM k (by simp [hk]))
        (mergeInto acc m)
        (mergeInto_nonchoice hacc (hM m (by simp))) j hj
  exact main L hL [] (by simp)

theorem extractFoodItems_nonchoice (text : List Char) :
    ∀ i ∈ extractFoodItems text, i.is_choice = false := by
  unfold extractFoodItems
  apply mergeSimilarItems_nonchoice
  intro j hj
  rcases List.mem_flatten.mp hj with ⟨l, hl, hjl⟩
  rcases List.mem_map.mp hl with ⟨ph, _, rfl⟩
  exact phraseContrib_nonchoice ph j hjl

/-! ## Field-preservation lemmas for the soda normalization (claims C9, C10) -/

theorem normalizeSoda_is_choice (fi : FoodItem) :
    (normalizeSoda fi).is_choice = fi.is_choice := by
  unfold normalizeSoda
  repeat' split
  all_goals rfl

theorem normalizeSoda_choice_group (fi : FoodItem) :
    (normalizeSoda fi).choice_group = fi.choice_group := by
  unfold normalizeSoda
  repeat' split
  all_goals rfl

/-! ## Hour-extraction lemmas (claim C7) -/

theorem matchLit_suffix : ∀ (lit cs r : List Char), matchLit lit cs = some r → r <:+ cs := by
  intro lit
  induction lit with
  | nil =>
    intro cs r h
    simp only [matchLit, Option.some.injEq] at h
    exact h ▸ List.suffix_refl cs
  | cons l ls ih =>
    intro cs r h
    cases cs with
    | nil => simp [matchLit] at h
    | cons c rest =>
      simp only [matchLit] at h
      by_cases hc : c = l
      · rw [if_pos hc] at h
        exact (ih rest r h).trans (List.suffix_cons c rest)
      · rw [if_neg hc] at h
        exact absurd h (by simp)

theorem dropWs_suffix (cs : List Char) : dropWs cs <:+ cs :=
  List.dropWhile_suffix _

theorem matchWs1_suffix {cs r : List Char} (h : matchWs1 cs = some r) : r <:+ cs := by
  cases cs with
  | nil => simp [matchWs1] at h
  | cons c rest =>
    simp only [matchWs1] at h
    by_cases hc : isWs c = true
    · rw [if_pos hc] at h
      cases h
      exact (dropWs_suffix rest).trans (List.suffix_cons c rest)
    · rw [if_neg hc] at h
      exact absurd h (by simp)

theorem pHourSep_mem {sep : Char} {cs : List Char} {x : List Char × List Char}
    (h : pHourSep sep cs = some x) : sep ∈ cs := by
  unfold pHourSep at h
  split at h
  · rename_i a b c r
    split at h
    · rename_i h1
      simp only [Bool.and_eq_true, decide_eq_true_eq] at h1
      simp [h1.2]
    · split at h
      · rename_i h2
        simp only [Bool.and_eq_true, decide_eq_true_eq] at h2
        simp [h2.2]
      · exact absurd h (by simp)
  · rename_i a b
    split at h
    · rename_i h1
      simp only [Bool.and_eq_true, decide_eq_true_eq] at h1
      simp [h1.2]
    · exact absurd h (by simp)
  · exact absurd h (by simp)

theorem pCore_mem {sep : Char} {cs : List Char} {x : String × List Char}
    (h : pCore sep cs = some x) : sep ∈ cs := by
  unfold pCore at h
  rw [Option.bind_eq_some] at h
  obtain ⟨p1, h1, -⟩ := h
  exact pHourSep_mem h1

theorem fraTilAt_mem {cs : List Char} {x : String × List Char}
    (h : fraTilAt cs = some x) : ':' ∈ cs := by
  unfold fraTilAt at h
  rw [Option.bind_eq_some] at h
  obtain ⟨r0, h0, h⟩ := h
  rw [Option.bind_eq_some] at h
  obtain ⟨r1, h1, h⟩ := h
  rw [Option.bind_eq_some] at h
  obtain ⟨p1, h2, -⟩ := h
  exact (matchLit_suffix _ _ _ h0).subset
    ((matchWs1_suffix h1).subset (pHourSep_mem h2))

theorem milliOgAt_mem {cs : List Char} {x : String × List Char}
    (h : milliOgAt cs = some x) : ':' ∈ cs := by
  unfold milliOgAt at h
  rw [Option.bind_eq_some] at h
  obtain ⟨r0, h0, h⟩ := h
  rw [Option.bind_eq_some] at h
  obtain ⟨r1, h1, h⟩ := h
  rw [Option.bind_eq_some] at h
  obtain ⟨p1, h2, -⟩ := h
  exact (matchLit_suffix _ _ _ h0).subset
    ((matchWs1_suffix h1).subset (pHourSep_mem h2))

theorem skipDot_suffix (cs : List Char) : skipDot cs <:+ cs := by
  unfold skipDot
  split
  · exact List.suffix_cons _ _
  · exact List.suffix_refl _

theorem klAt_mem {cs : List Char} {x : String × List Char}
    (h : klAt cs = some x) : ':' ∈ cs := by
  unfold klAt at h
  rw [Option.bind_eq_some] at h
  obtain ⟨r0, h0, h⟩ := h
  have hmem : ':' ∈ dropWs (skipDot r0) := pCore_mem h
  exact (matchLit_suffix _ _ _ h0).subset
    ((skipDot_suffix r0).subset ((dropWs_suffix _).subset hmem))

theorem scanMatches_eq_nil {attempt : List Char → Option (String × List Char)}
    {ch : Char} (hA : ∀ g x, attempt g = some x → ch ∈ g) :
    ∀ (n : Nat) (cs : List Char), ch ∉ cs → scanMatches attempt n cs = [] := by
  intro n
  induction n with
  | zero => intro cs _; rfl
  | succ n ih =>
    intro cs hn
    cases cs with
    | nil => rfl
    | cons c rest =>
      simp only [scanMatches]
      cases h : attempt (c :: rest) with
      | some p => exact absurd (hA _ _ h) hn
      | none =>
        exact ih rest (fun hm => hn (by simp [hm]))

/-! ## Claim theorems -/

/-- C1: the claim says the meal classifier assigns `"family"` only on direct
lexical evidence of the Icelandic word for family, deriving everything else
from the category rules regardless of total quantity.  The source's
`_determine_meal_type` instead returns `"family"` for any item list whose
quantities sum to at least 6, with no access to the source text at all: on
`"6 búlluborgarar"` (one main item, quantity 6, no family word) the code
yields `"family"` where the spec's text-gated rules yield `"individual"`. -/
theorem mealType_family_threshold_eval :
    (extractFoodInfo "6 búlluborgarar" "").meal_type = "family" ∧
    specMealClassify "6 búlluborgarar"
      (extractFoodInfo "6 búlluborgarar" "").food_items = "individual" := by
  constructor
  · decide
  · decide

/-- C2: the claim says every food-extraction path partitions `food_items`
exactly into the four derived category lists.  The Domino's TRÍÓ branch
violates this: it installs three pizza choice items as `food_items` after
filling the derived lists from the empty-food-info dict, leaving all four
category lists empty (`0 ≠ 3`). -/
theorem trio_partition_violation :
    isTrioOffer (some "Trio tilboð") = true ∧
    (dominosTrioFoodInfo none).food_items.length = 3 ∧
    (dominosTrioFoodInfo none).main_items.length +
      (dominosTrioFoodInfo none).side_items.length +
      (dominosTrioFoodInfo none).drink_items.length +
      (dominosTrioFoodInfo none).dessert_items.length = 0 := by
  refine ⟨by decide, by decide, by decide⟩

/-- C3: the merge pass of `_merge_similar_items` is idempotent.  After one
pass all `(type, size)` keys are pairwise distinct, so a second pass finds no
similar pair and appends every item unchanged. -/
theorem mergeSimilarItems_idempotent (L : List FoodItem) :
    mergeSimilarItems (mergeSimilarItems L) = mergeSimilarItems L := by
  have hnd : ((mergeSimilarItems L).map itemKey).Nodup :=
    nodup_keys_foldl L [] (by simp)
  have hfold := foldl_mergeInto_of_nodup (mergeSimilarItems L) [] (by simpa using hnd)
  simpa [mergeSimilarItems] using hfold

/-- C4 counterexample: the LLM parse path copies `meal_type` verbatim from the
decoded response, so a response saying `"feast"` with an empty item list
produces a result whose meal type is outside the fixed enum and is not
`"snack"`, refuting both halves of the claim. -/
theorem llm_mealType_passthrough_cex :
    (parseLLMResponse vocabEmpty iconDefault
        { food_items := [], meal_type := some "feast" }).meal_type = "feast" ∧
    (parseLLMResponse vocabEmpty iconDefault
        { food_items := [], meal_type := some "feast" }).food_items = [] ∧
    mealTypeEnum.contains "feast" = false := by
  refine ⟨rfl, rfl, by decide⟩

/-- C4 amended: the regex strategy's meal type always lies in the fixed enum
and is `"snack"` for an empty item list; the LLM strategy's error sentinel
yields `"unknown"` (with an empty item list), and its parse path takes the
meal type from the response unvalidated, defaulting to `"snack"` only when the
field is absent. -/
theorem mealType_enum_amended :
    (∀ items, mealTypeEnum.contains (determineMealType items) = true) ∧
    determineMealType [] = "snack" ∧
    emptyFoodInfoLLM.meal_type = "unknown" ∧
    emptyFoodInfoLLM.food_items = [] ∧
    (∀ vocab iconF d, (parseLLMResponse vocab iconF d).meal_type =
        d.meal_type.getD "snack") := by
  refine ⟨?_, rfl, rfl, rfl, fun _ _ _ => rfl⟩
  intro items
  unfold determineMealType
  dsimp only
  split_ifs
  all_goals rfl

/-- C5: each extraction result's total item count is the quantity sum over
exactly the non-choice items.  The regex extractor sums over all items, every
one of which carries `is_choice = false`; both LLM parse variants filter
choice items out explicitly. -/
theorem total_items_excludes_choice :
    (∀ name desc, (extractFoodInfo name desc).total_items =
        sumQuantities ((extractFoodInfo name desc).food_items.filter
          (fun i => !i.is_choice))) ∧
    (∀ vocab iconF d, (parseLLMResponse vocab iconF d).total_food_items =
        sumQuantities ((parseLLMResponse vocab iconF d).food_items.filter
          (fun i => !i.is_choice))) ∧
    (∀ vocab iconF d, (parseBatchLLMOffer vocab iconF d).total_food_items =
        sumQuantities ((parseBatchLLMOffer vocab iconF d).food_items.filter
          (fun i => !i.is_choice))) := by
  refine ⟨?_, fun _ _ _ => rfl, fun _ _ _ => rfl⟩
  intro name desc
  have hall : ∀ i ∈ (extractFoodInfo name desc).food_items, i.is_choice = false :=
    fun i hi => extractFoodItems_nonchoice _ i hi
  have hfil : (extractFoodInfo name desc).food_items.filter (fun i => !i.is_choice) =
      (extractFoodInfo name desc).food_items :=
    List.filter_eq_self.mpr (fun a ha => by simp [hall a ha])
  rw [hfil]
  rfl

/-- C6 counterexample: `"hamborgari og pizza"` yields two items of the single
category `main`, yet `is_combo` is `true`, refuting the claim that two items
of the same category never make a combo. -/
theorem is_combo_same_category_cex :
    (extractFoodInfo "hamborgari og pizza" "").is_combo = true ∧
    ((extractFoodInfo "hamborgari og pizza" "").food_items.map
      (·.category)).eraseDups = ["main"] := by
  refine ⟨by decide, by decide⟩

/-- C6 amended: `is_combo` is true iff at least two items (non-choice items in
the LLM path) have a category among `main`/`side`/`drink`, counting items
rather than distinct categories. -/
theorem is_combo_counts_items :
    (∀ name desc, (extractFoodInfo name desc).is_combo =
        decide (2 ≤ (extractFoodInfo name desc).food_items.countP
          (fun i => ["main", "side", "drink"].contains i.category))) ∧
    (∀ vocab iconF d, (parseLLMResponse vocab iconF d).is_combo =
        decide (2 ≤ (parseLLMResponse vocab iconF d).food_items.countP
          (fun i => ["main", "side", "drink"].contains i.category &&
            !i.is_choice))) := by
  constructor
  · intro name desc
    simp [extractFoodInfo, List.countP_eq_length_filter, ge_iff_le]
  · intro vocab iconF d
    simp [parseLLMResponse, List.countP_eq_length_filter, ge_iff_le]

/-- C7: `extract_hours` returns exactly `"11:00-15:00"` for
`"kl. 11:00-15:00"`, returns nothing for `"frá 11 til 15"`, and more generally
returns nothing for any text without a `:`/`.` time separator and without a
named meal word — a bare standalone number is never treated as an hour. -/
theorem extract_hours_claim :
    extractHours "kl. 11:00-15:00" = some "11:00-15:00" ∧
    extractHours "frá 11 til 15" = none ∧
    (∀ t : String, noHourEvidence t = true → extractHours t = none) := by
  refine ⟨by decide, by decide, ?_⟩
  intro t h
  unfold noHourEvidence at h
  simp only [Bool.and_eq_true, decide_eq_true_eq, Bool.not_eq_true'] at h
  obtain ⟨⟨⟨⟨⟨⟨hc, hd⟩, h1⟩, h2⟩, h3⟩, h4⟩, h5⟩ := h
  by_cases ht : t = ""
  · simp [extractHours, ht]
  · have e1 : ∀ n, scanMatches (pCore ':') n (t.data.map Char.toLower) = [] :=
      fun n => scanMatches_eq_nil (fun _ _ hg => pCore_mem hg) n _ hc
    have e2 : ∀ n, scanMatches (pCore '.') n (t.data.map Char.toLower) = [] :=
      fun n => scanMatches_eq_nil (fun _ _ hg => pCore_mem hg) n _ hd
    have e3 : ∀ n, scanMatches fraTilAt n (t.data.map Char.toLower) = [] :=
      fun n => scanMatches_eq_nil (fun _ _ hg => fraTilAt_mem hg) n _ hc
    have e4 : ∀ n, scanMatches milliOgAt n (t.data.map Char.toLower) = [] :=
      fun n => scanMatches_eq_nil (fun _ _ hg => milliOgAt_mem hg) n _ hc
    have e5 : ∀ n, scanMatches klAt n (t.data.map Char.toLower) = [] :=
      fun n => scanMatches_eq_nil (fun _ _ hg => klAt_mem hg) n _ hc
    simp [extractHours, ht, e1, e2, e3, e4, e5, addAll, addUnique, mealTimes,
      h1, h2, h3, h4, h5]

/-- C8: the claim says the period resolution turns `"2.190 kr"` into `2190`
(3 digits: thousands separator) and `"10.90 kr"` into `1090` (2 digits:
decimal times 100).  The source's 2-digit branch removes the period and then
appends a `'0'` (`price_str.replace('.', '') + '0'`), producing `10900`, in
conflict with its own inline comment `"10.90" = 1090 kr`; the 3-digit branch
behaves as claimed. -/
theorem price_period_resolution_eval :
    extractPriceKr "2.190 kr" = some 2190 ∧
    extractPriceKr "10.90 kr" = some 10900 := by
  refine ⟨by decide, by decide⟩

/-- C9 counterexample: the three TRÍÓ alternative pizzas are emitted with
`is_choice = true` but with no `choice_group` key at all, so a choice item
does not carry a group value shared with any other item. -/
theorem trio_choice_group_missing_cex :
    (dominosTrioFoodInfo none).food_items.length = 3 ∧
    (dominosTrioFoodInfo none).food_items.all
      (fun i => i.is_choice && i.choice_group.isNone) = true := by
  refine ⟨by decide, by decide⟩

/-- C9 amended: the TRÍÓ branch emits every alternative as `is_choice = true`
with no `choice_group`, and the LLM parse path copies `is_choice` and
`choice_group` verbatim from the model response; no code path enforces that a
choice item shares its group with another item. -/
theorem choice_fields_passthrough :
    (∀ tp, (dominosTrioFoodInfo tp).food_items.all
        (fun i => i.is_choice && i.choice_group.isNone) = true) ∧
    (∀ vocab iconF d, (parseLLMResponse vocab iconF d).food_items.map
        (fun i => (i.is_choice, i.choice_group)) =
      d.food_items.map (fun it => (it.is_choice, it.choice_group))) := by
  constructor
  · intro tp
    simp only [dominosTrioFoodInfo, List.all_eq_true]
    intro i hi
    rcases List.mem_map.mp hi with ⟨n, _, rfl⟩
    rfl
  · intro vocab iconF d
    simp only [parseLLMResponse, List.map_map]
    apply List.map_congr_left
    intro it _
    simp [Function.comp, normalizeSoda_is_choice, normalizeSoda_choice_group,
      convertLLMItem]

/-- C10: both LLM parse variants apply the soda normalization to every item;
for a soda item, a (truthy) liters size forces the quantity to 1, a missing
size with quantity in (1, 3] is rewritten to quantity 1 with that many liters,
and consequently a normalized soda item never has both a liters size and a
quantity above 1. -/
theorem soda_liters_normalization :
    (∀ vocab iconF d, (parseLLMResponse vocab iconF d).food_items =
        d.food_items.map (fun it => normalizeSoda (convertLLMItem vocab iconF it))) ∧
    (∀ vocab iconF d, (parseBatchLLMOffer vocab iconF d).food_items =
        d.food_items.map (fun it => normalizeSoda (convertLLMItem vocab iconF it))) ∧
    (∀ fi : FoodItem, fi.type = "soda" →
      (litersTruthy fi.size = true → (normalizeSoda fi).quantity = 1) ∧
      (fi.size = none → 1 < fi.quantity → fi.quantity ≤ 3 →
        (normalizeSoda fi).quantity = 1 ∧
        (normalizeSoda fi).size = some { liters := some fi.quantity }) ∧
      ¬(litersTruthy (normalizeSoda fi).size = true ∧
        1 < (normalizeSoda fi).quantity)) := by
  refine ⟨fun _ _ _ => rfl, fun _ _ _ => rfl, ?_⟩
  intro fi hty
  unfold normalizeSoda
  rw [if_pos hty]
  refine ⟨?_, ?_, ?_⟩
  · intro hl
    rw [if_pos hl]
  · intro hnone h1 h3
    have hl : litersTruthy fi.size = false := by rw [hnone]; rfl
    have hst : sizeTruthy fi.size = false := by rw [hnone]; rfl
    rw [if_neg (by simp [hl])]
    rw [if_pos (by simp [hst]; omega)]
    rw [if_pos (by simp; omega)]
    exact ⟨rfl, rfl⟩
  · by_cases hl : litersTruthy fi.size = true
    · rw [if_pos hl]
      simp
    · rw [if_neg hl]
      by_cases h2 : (fi.quantity > 1 && !sizeTruthy fi.size) = true
      · rw [if_pos h2]
        by_cases h3 : (1 < fi.quantity && fi.quantity ≤ 3) = true
        · rw [if_pos h3]
          simp
        · rw [if_neg h3]
          simp [hl]
      · rw [if_neg h2]
        simp [hl]

/-- Witness for C7: the general no-separator statement applied at the concrete
claim input `"frá 11 til 15"`. -/
theorem extract_hours_claim_witness :
    noHourEvidence "frá 11 til 15" = true ∧ extractHours "frá 11 til 15" = none :=
  ⟨by decide, extract_hours_claim.2.2 "frá 11 til 15" (by decide)⟩

/-- Witness for C10: the liters rule applied to a concrete LLM soda item with
`size = {liters: 2}` and quantity 5. -/
theorem soda_liters_normalization_witness :
    (normalizeSoda exampleSoda).quantity = 1 :=
  (soda_liters_normalization.2.2 exampleSoda rfl).1 (by decide)

end Fastfood
